import Mathlib

/-!
Verification development for the qtapp plugin subsystem.

Shallow embedding of:
- `qtapp/utils/registrable.py` (Registrable, RegistrableLoader, BaseRegistry)
- `qtapp/utils/worker.py` (Worker.run)
- `qtapp/plugins/schemas.py` (ModuleMetadata, Repository.loadFromFile, Module)
- `qtapp/plugins/services.py` (PluginService.load / addModulesFromRepository)
- `qtapp/common/models/ItemTableModel.py` (appendItem / isPresent)
- `qtapp/plugins/__init__.py` (BasePlugin constructor, navigationBarButton)
- `qtapp/app.py` (BaseApplication.run, handleRegistrable, _MainWindow.addPlugin)

Python dicts preserve insertion order, so registries are modelled as
association lists `List (String × T)`; Qt signal emission is synchronous
(direct connection), so the notifications a call emits before returning are
modelled as part of that call's return value.
-/

namespace QtApp

/-! ## Registry (qtapp/utils/registrable.py, BaseRegistry) -/

/-- Errors raised by `BaseRegistry` (qtapp/exceptions):
`RegistrableAlreadyExistsError` from `add`, `RegistrableNotFoundError` from
`remove`. -/
inductive RegError
  | registrableAlreadyExists
  | registrableNotFound
deriving DecidableEq, Repr

/-- Signals of `BaseRegistry`: `registrableAdded` and `registrableRemoved`,
each carrying the affected registrable. -/
inductive RegEvent (T : Type)
  | added (x : T)
  | removed (x : T)
deriving DecidableEq, Repr

/-- `self._registrables.get(id, None)`: dictionary lookup keyed by id.
The registry dictionary is an insertion-ordered association list. -/
def regGet {T : Type} : List (String × T) → String → Option T
  | [], _ => none
  | (k, v) :: rest, i => if k = i then some v else regGet rest i

/-- `BaseRegistry.add` on a single registrable (the non-list branch):
if `self._registrables.get(registrable.id) is not None` raise
`RegistrableAlreadyExistsError`; else store under its id (a fresh dict key is
appended in insertion order) and emit `registrableAdded`.  The result carries
the registry contents after the call, the signals emitted during the call,
and the exception if one was raised (in which case nothing was stored or
emitted). -/
def regAdd {T : Type} (idOf : T → String) (reg : List (String × T)) (x : T) :
    List (String × T) × List (RegEvent T) × Option RegError :=
  match regGet reg (idOf x) with
  | some _ => (reg, [], some RegError.registrableAlreadyExists)
  | none => (reg ++ [(idOf x, x)], [RegEvent.added x], none)

/-- `BaseRegistry.add` on a list: `for r in registrable: self.add(r)`.
An exception raised for item k propagates at once, so items after k are not
processed; items before k stay added. -/
def regAddList {T : Type} (idOf : T → String) :
    List (String × T) → List T → List (String × T) × List (RegEvent T) × Option RegError
  | reg, [] => (reg, [], none)
  | reg, x :: xs =>
    match regAdd idOf reg x with
    | (reg1, evs, some e) => (reg1, evs, some e)
    | (reg1, evs, none) =>
      match regAddList idOf reg1 xs with
      | (reg2, evs2, res) => (reg2, evs ++ evs2, res)

/-- Registry contents after one `add` call, whether it raised or not (a
raised `add` leaves the dictionary untouched). -/
def regAddRun {T : Type} (idOf : T → String) (reg : List (String × T)) (x : T) :
    List (String × T) :=
  (regAdd idOf reg x).1

/-- Registry contents after a whole sequence of single-item `add` calls,
each call either succeeding or raising without effect. -/
def regAddSeq {T : Type} (idOf : T → String) :
    List (String × T) → List T → List (String × T)
  | reg, [] => reg
  | reg, x :: xs => regAddSeq idOf (regAddRun idOf reg x) xs

/-- Keys of the registry dictionary. -/
def regKeys {T : Type} (reg : List (String × T)) : List String :=
  reg.map Prod.fst

/-! ## Background task runner (qtapp/utils/worker.py, Worker.run) -/

/-- Signals of `WorkerSignals`: `result(object)`, `error(tuple)`,
`finished()`. -/
inductive WorkerEvent (E V : Type)
  | resultEv (v : V)
  | errorEv (e : E)
  | finishedEv
deriving DecidableEq, Repr

/-- `Worker.run`: `try: result = fn(...)` — on an exception the `except`
branch emits `error(exceptionInfo)`, on normal return the `else` branch emits
`result(value)`, and the `finally` branch emits `finished()` in both cases.
The submitted function's outcome is its returned value or the exception it
raised; the run is the list of signals emitted, in order. -/
def workerRun {E V : Type} (outcome : Except E V) : List (WorkerEvent E V) :=
  match outcome with
  | Except.error e => [WorkerEvent.errorEv e, WorkerEvent.finishedEv]
  | Except.ok v => [WorkerEvent.resultEv v, WorkerEvent.finishedEv]

/-- A terminal notification is `result` or `error` (not `finished`). -/
def isTerminal {E V : Type} : WorkerEvent E V → Bool
  | WorkerEvent.resultEv _ => true
  | WorkerEvent.errorEv _ => true
  | WorkerEvent.finishedEv => false

/-! ## Loader (qtapp/utils/registrable.py, RegistrableLoader) -/

/-- One top-level binding of a dynamically loaded Python module's namespace
(`module.__dict__`): whether the bound object is a type
(`isinstance(obj, type)`) and, when it is, which class it is.  Classes are
identified by numbers; the host subclass relation `issubclass` is passed in
as a parameter. -/
structure PyDef where
  isClass : Bool
  cls : Nat
deriving DecidableEq, Repr

/-- An object produced by `obj(*args, **kwargs)` inside the loader: it
records its class and the constructor arguments it was given verbatim. -/
structure LoadedInstance where
  cls : Nat
  ctorArgs : List Nat
deriving DecidableEq, Repr

/-- `modname.startswith(".")`: true exactly when the first character is a
dot (an empty name starts with nothing). -/
def strStartsWithDot (s : String) : Bool :=
  match s.data with
  | [] => false
  | c :: _ => c == '.'

/-- `_isValidModule(modname, ext)`: `ext == ".py" and not
modname.startswith(".")`. -/
def isValidModule (modname ext : String) : Bool :=
  ext == ".py" && !(strStartsWithDot modname)

/-- `RegistrableLoader._loadRegistrablesFromModule` after the module has been
executed: for every binding `obj` of the namespace, if `isinstance(obj, type)
and issubclass(obj, class_) and obj != class_` then instantiate
`obj(*args, **kwargs)` and append it; other bindings are skipped. -/
def loadRegistrablesFromModule (issub : Nat → Nat → Bool) (cap : Nat)
    (args : List Nat) (defs : List PyDef) : List LoadedInstance :=
  defs.filterMap fun d =>
    if d.isClass && issub d.cls cap && d.cls != cap then
      some { cls := d.cls, ctorArgs := args }
    else none

/-- A filesystem entry the loader can visit: a file (name, extension, and the
top-level bindings its execution produces) or a directory of entries. -/
inductive FsEntry
  | file (name ext : String) (defs : List PyDef)
  | dir (entries : List FsEntry)

mutual

/-- `RegistrableLoader.load` / `_loadRegistrablesFromModule`: a file is
loaded only when `_isValidModule` accepts it (an invalid file contributes
zero instances); a directory is traversed entry by entry, recursing into
sub-directories, concatenating the sub-results with `extend`. -/
def loadEntry (issub : Nat → Nat → Bool) (cap : Nat) (args : List Nat) :
    FsEntry → List LoadedInstance
  | FsEntry.file name ext defs =>
    if isValidModule name ext then loadRegistrablesFromModule issub cap args defs
    else []
  | FsEntry.dir entries => loadEntries issub cap args entries

/-- The `for itemFile in path.iterdir()` loop of `RegistrableLoader.load`. -/
def loadEntries (issub : Nat → Nat → Bool) (cap : Nat) (args : List Nat) :
    List FsEntry → List LoadedInstance
  | [] => []
  | e :: rest => loadEntry issub cap args e ++ loadEntries issub cap args rest

end

/-! ## Manifest / Module (qtapp/plugins/schemas.py) -/

/-- Spec name for the parse failures `Repository.loadFromFile` propagates:
`json.JSONDecodeError` for malformed JSON, the `TypeError` raised by
`ModuleMetadata(**obj)` for an entry missing a required field. -/
inductive ManifestParseError
  | malformedJson
  | missingField
deriving DecidableEq, Repr

/-- One JSON object of the manifest array, before validation: each of the
dataclass fields of `ModuleMetadata` may be present or absent. -/
structure RawEntry where
  id : Option String
  relativePath : Option String
  displayName : Option String
  description : Option String
deriving DecidableEq, Repr

/-- A manifest file as `json.load` sees it: either malformed JSON (the load
raises before any entry is built) or a parsed array of objects. -/
inductive ManifestFile
  | malformed
  | parsed (entries : List RawEntry)

/-- `ModuleMetadata` (frozen dataclass): `id`, `relativePath`, `displayName`
required, `description` optional with default `None`. -/
structure ModuleMetadata where
  id : String
  relativePath : String
  displayName : String
  description : Option String
deriving DecidableEq, Repr

/-- `ModuleMetadata(**obj)`: raises `TypeError` when a required field is
missing from the object, else builds the metadata. -/
def parseEntry (e : RawEntry) : Except ManifestParseError ModuleMetadata :=
  match e.id, e.relativePath, e.displayName with
  | some i, some r, some d =>
    Except.ok { id := i, relativePath := r, displayName := d, description := e.description }
  | _, _, _ => Except.error ManifestParseError.missingField

/-- The list comprehension `[ModuleMetadata(**obj) for obj in jsonData]`:
entries are converted in order and the first failure aborts the whole
comprehension. -/
def parseEntries : List RawEntry → Except ManifestParseError (List ModuleMetadata)
  | [] => Except.ok []
  | e :: rest =>
    match parseEntry e with
    | Except.error err => Except.error err
    | Except.ok m =>
      match parseEntries rest with
      | Except.error err => Except.error err
      | Except.ok ms => Except.ok (m :: ms)

/-- `Repository` (frozen dataclass): the manifest's resolved parent directory
and the parsed metadata list. -/
structure Repository where
  path : String
  modulesMetadata : List ModuleMetadata
deriving DecidableEq, Repr

/-- `Repository.loadFromFile`: `json.load` the file (raising on malformed
JSON), build one `ModuleMetadata` per entry (raising on a missing required
field), and return a Repository whose `path` is the manifest's absolute
parent directory (`Path(path).resolve().parent`), here passed in as
`basePath`. -/
def loadFromFile (basePath : String) : ManifestFile → Except ManifestParseError Repository
  | ManifestFile.malformed => Except.error ManifestParseError.malformedJson
  | ManifestFile.parsed es =>
    match parseEntries es with
    | Except.error err => Except.error err
    | Except.ok ms => Except.ok { path := basePath, modulesMetadata := ms }

/-- Whether a path string is absolute: its first character is the
separator. -/
def strStartsWithSlash (s : String) : Bool :=
  match s.data with
  | [] => false
  | c :: _ => c == '/'

/-- `pathlib.Path.joinpath` on string paths: joining an absolute path
replaces the base, otherwise the relative part is appended with a
separator. -/
def joinpath (a b : String) : String :=
  if strStartsWithSlash b then b else a ++ "/" ++ b

/-- `Module.__init__(dirPath, metadata)`: copies `id`, `displayName`,
`description`, sets `path = dirPath.joinpath(metadata.relativePath)` and
`enabled = False`.  `tag` stands for the Python object identity of the
freshly constructed `Module` (every construction yields a new object). -/
structure ModuleObj where
  tag : Nat
  mid : String
  displayName : String
  description : Option String
  mpath : String
  enabled : Bool
deriving DecidableEq, Repr

/-- `Module(dirPath, metadata)` constructed as the object with identity
`tag`. -/
def mkModule (tag : Nat) (dirPath : String) (meta : ModuleMetadata) : ModuleObj :=
  { tag := tag
    mid := meta.id
    displayName := meta.displayName
    description := meta.description
    mpath := joinpath dirPath meta.relativePath
    enabled := false }

/-! ## Module list (qtapp/common/models/ItemTableModel.py, ModuleListModel) -/

/-- `ItemTableModel.isPresent(item)`: `item in self.items`.  `Module` is a
plain class without `__eq__`, so Python membership compares object identity;
two distinct `Module` objects are never equal even with identical fields. -/
def isPresent (items : List ModuleObj) (m : ModuleObj) : Bool :=
  items.any fun x => x.tag == m.tag

/-- `ItemTableModel.appendItem(item)`: return `False` when `isPresent`, else
append at the end and return `True`. -/
def appendItem (items : List ModuleObj) (m : ModuleObj) : List ModuleObj × Bool :=
  if isPresent items m then (items, false) else (items ++ [m], true)

/-- `PluginService.addModulesFromRepository`: for each metadata construct
`Module(repository.path, metadata)` — a fresh object, identity drawn from the
counter — and `addModule` it, which appends it to the module list model. -/
def addModulesAux (dirPath : String) :
    Nat → List ModuleObj → List ModuleMetadata → List ModuleObj × Nat
  | c, items, [] => (items, c)
  | c, items, meta :: rest =>
    addModulesAux dirPath (c + 1) (appendItem items (mkModule c dirPath meta)).1 rest

/-- The Modules `addModulesFromRepository` constructs for a metadata list,
with identities counted up from `c`. -/
def freshModules (dirPath : String) : Nat → List ModuleMetadata → List ModuleObj
  | _, [] => []
  | c, meta :: rest => mkModule c dirPath meta :: freshModules dirPath (c + 1) rest

/-- One iteration of `PluginService.load`'s first loop for one repository
file: `Repository.loadFromFile` (its exception propagating out of `load`),
then `addModulesFromRepository`. -/
def pluginServiceLoadOne (counter : Nat) (items : List ModuleObj)
    (basePath : String) (file : ManifestFile) :
    Except ManifestParseError (List ModuleObj × Nat) :=
  match loadFromFile basePath file with
  | Except.error err => Except.error err
  | Except.ok repo => Except.ok (addModulesAux repo.path counter items repo.modulesMetadata)

/-- Module list contents after the iteration, an exception leaving the list
as it was. -/
def pluginServiceLoadOneRun (counter : Nat) (items : List ModuleObj)
    (basePath : String) (file : ManifestFile) : List ModuleObj :=
  match pluginServiceLoadOne counter items basePath file with
  | Except.error _ => items
  | Except.ok (items2, _) => items2

/-! ## Plugins and the shell (qtapp/plugins/__init__.py, qtapp/app.py) -/

/-- Truthiness of `Optional[str]` in Python: `None` and the empty string are
falsy, any other string is truthy. -/
def truthyStr : Option String → Bool
  | none => false
  | some s => !s.data.isEmpty

/-- `NavigationBarButton(qtaIconStr, toolTip)` as constructed in
`BasePlugin.__init__`. -/
structure NavButton where
  icon : String
  tip : String
deriving DecidableEq, Repr

/-- A `BasePlugin` instance: its registrable `id`, the constructor arguments
`priority`, `qtaIconStr`, `toolTip` (qtapp/plugins/init, `BasePlugin.__init__`),
and whether the subclass overrides `widget` to return a widget (the base
implementation returns `None`). -/
structure PluginP where
  pid : String
  priority : Int
  qtaIconStr : Option String
  toolTip : Option String
  hasWidget : Bool
deriving DecidableEq, Repr

/-- `BasePlugin.__init__` sets `self._navBarBtn = NavigationBarButton(...)`
under `if qtaIconStr and toolTip:` and `None` otherwise;
`BasePlugin.navigationBarButton` returns `self._navBarBtn`. -/
def navigationBarButton (p : PluginP) : Option NavButton :=
  if truthyStr p.qtaIconStr && truthyStr p.toolTip then
    some { icon := p.qtaIconStr.getD "", tip := p.toolTip.getD "" }
  else none

/-- `PluginService.addPlugin(plugin)`: `self._registry.add(plugin)` on the
PluginRegistry, keyed by the plugin's id. -/
def pluginServiceAddPlugin (reg : List (String × PluginP)) (p : PluginP) :
    List (String × PluginP) × List (RegEvent PluginP) × Option RegError :=
  regAdd (fun q => q.pid) reg p

/-- The parts of `_MainWindow` that `addPlugin` mutates: the central
`QStackedWidget` pages and the `NavigationBar` buttons, each recorded by the
owning plugin's id in the order added. -/
structure WindowState where
  stackWidgets : List String
  navEntries : List String
deriving DecidableEq, Repr

/-- `_MainWindow.addPlugin(plugin)`: `widget = plugin.widget(self)`,
`navBarBtn = plugin.navigationBarButton()`; `if not widget or not navBarBtn:
return`; otherwise the widget is added to the stack and the button to the
navigation bar. -/
def windowAddPlugin (w : WindowState) (p : PluginP) : WindowState :=
  if !p.hasWidget || (navigationBarButton p).isNone then w
  else
    { stackWidgets := w.stackWidgets ++ [p.pid]
      navEntries := w.navEntries ++ [p.pid] }

/-- Whether `_MainWindow.addPlugin` renders a navigation entry for a plugin:
both a widget and a navigation-bar button must be present. -/
def rendersNav (p : PluginP) : Bool :=
  p.hasWidget && (navigationBarButton p).isSome

/-- Ordering key used by `BaseApplication.run`:
`plugins.sort(key=lambda p: p.priority)`. -/
def priorityLe (a b : PluginP) : Prop :=
  a.priority ≤ b.priority

instance : DecidableRel priorityLe := fun a b => Int.decLe a.priority b.priority

instance : IsTotal PluginP priorityLe := ⟨fun a b => Int.le_total a.priority b.priority⟩

instance : IsTrans PluginP priorityLe := ⟨fun _ _ _ h1 h2 => le_trans h1 h2⟩

/-- `list.sort(key=...)` is the stable ascending sort by key; a stable
insertion sort computes it. -/
def sortPlugins (l : List PluginP) : List PluginP :=
  List.insertionSort priorityLe l

/-- `BaseApplication.run`'s startup loop: take the registered plugins in
registry insertion order (`list(self.pluginService.plugins().values())`),
sort them stably by priority, then `self._mainWindow.addPlugin(plugin)` for
each in that order. -/
def runShell (registered : List PluginP) : WindowState :=
  (sortPlugins registered).foldl windowAddPlugin
    { stackWidgets := [], navEntries := [] }

/-! ## Capability router (qtapp/app.py, BaseApplication.handleRegistrable) -/

/-- A `Registrable` carried in a plugin's `registrables` list, as the router
sees it: its id and its runtime type's answers to
`issubclass(cls, BaseDock)` and `issubclass(cls, BaseSetting)`. -/
structure CRegistrable where
  rid : String
  isDock : Bool
  isSetting : Bool
deriving DecidableEq, Repr

/-- The two registries the router forwards into: `DockService`'s
DocksRegistry and `SettingService`'s SettingsRegistry. -/
structure AppServices where
  docks : List (String × CRegistrable)
  settings : List (String × CRegistrable)
deriving DecidableEq, Repr

/-- `BaseApplication.handleRegistrable(registrable)`: `cls =
type(registrable)`; `if issubclass(cls, BaseDock):
self.dockService.addDock(registrable)` and independently `if issubclass(cls,
BaseSetting): self.settingService.addSetting(registrable)`.  Both service
methods are plain `registry.add` calls, whose
`RegistrableAlreadyExistsError` would propagate; a registrable matching
neither check falls through with no call and no error. -/
def handleRegistrable (s : AppServices) (r : CRegistrable) :
    Except RegError AppServices :=
  match
    (if r.isDock then
      match regAdd (fun x => x.rid) s.docks r with
      | (_, _, some e) => Except.error e
      | (d, _, none) => Except.ok { s with docks := d }
    else Except.ok s) with
  | Except.error e => Except.error e
  | Except.ok s1 =>
    if r.isSetting then
      match regAdd (fun x => x.rid) s1.settings r with
      | (_, _, some e) => Except.error e
      | (st, _, none) => Except.ok { s1 with settings := st }
    else Except.ok s1

/-! ## Helper lemmas -/

/-- A concrete registrable type for witnesses. -/
structure RItem where
  rid : String
  payload : Nat
deriving DecidableEq, Repr

theorem regGet_none_iff {T : Type} (reg : List (String × T)) (i : String) :
    regGet reg i = none ↔ i ∉ regKeys reg := by
  induction reg with
  | nil => simp [regGet, regKeys]
  | cons kv rest ih =>
    obtain ⟨k, v⟩ := kv
    by_cases h : k = i
    · subst h
      simp [regGet, regKeys]
    · simp [regGet, regKeys, h, ih, Ne.symm h]

theorem regAddRun_nodup {T : Type} (idOf : T → String) (reg : List (String × T))
    (x : T) (h : (regKeys reg).Nodup) : (regKeys (regAddRun idOf reg x)).Nodup := by
  unfold regAddRun regAdd
  cases hg : regGet reg (idOf x) with
  | some y => simpa using h
  | none =>
    have hnotin : idOf x ∉ regKeys reg := (regGet_none_iff reg (idOf x)).mp hg
    simp only [regKeys, List.map_append, List.map_cons, List.map_nil]
    rw [List.nodup_append]
    refine ⟨h, List.nodup_singleton _, ?_⟩
    intro a ha hb
    simp only [List.mem_singleton] at hb
    subst hb
    exact hnotin ha

theorem regAddSeq_nodup {T : Type} (idOf : T → String) :
    ∀ (xs : List T) (reg : List (String × T)),
      (regKeys reg).Nodup → (regKeys (regAddSeq idOf reg xs)).Nodup
  | [], _, h => h
  | x :: xs, reg, h =>
    regAddSeq_nodup idOf xs (regAddRun idOf reg x) (regAddRun_nodup idOf reg x h)

/-! ## Claims about the Registry -/

/-- C1: `BaseRegistry.add(item)` raises `RegistrableAlreadyExistsError` when
an item with the same id is already present, leaving the registry contents
unchanged and emitting nothing; otherwise it stores the item under its id
and emits `registrableAdded(item)` within the call.  Consequently, after any
sequence of single-item `add` calls starting from an empty registry, the
registry holds at most one item per id. -/
theorem registry_add_unique_spec {T : Type} (idOf : T → String) :
    (∀ (reg : List (String × T)) (x y : T),
        regGet reg (idOf x) = some y →
        regAdd idOf reg x = (reg, [], some RegError.registrableAlreadyExists)) ∧
    (∀ (reg : List (String × T)) (x : T),
        regGet reg (idOf x) = none →
        regAdd idOf reg x = (reg ++ [(idOf x, x)], [RegEvent.added x], none)) ∧
    (∀ xs : List T, (regKeys (regAddSeq idOf [] xs)).Nodup) := by
  refine ⟨?_, ?_, ?_⟩
  · intro reg x y h
    simp [regAdd, h]
  · intro reg x h
    simp [regAdd, h]
  · intro xs
    exact regAddSeq_nodup idOf xs [] (by simp [regKeys])

/-- Witness: a duplicate `add` fails and changes nothing, a fresh `add`
stores and notifies, and a run of adds with a reused id leaves unique
keys. -/
theorem registry_add_unique_spec_witness :
    regAdd (fun r : RItem => r.rid) [("a", { rid := "a", payload := 0 })]
        { rid := "a", payload := 1 } =
      ([("a", { rid := "a", payload := 0 })], [],
        some RegError.registrableAlreadyExists) ∧
    regAdd (fun r : RItem => r.rid) [("a", { rid := "a", payload := 0 })]
        { rid := "b", payload := 1 } =
      ([("a", { rid := "a", payload := 0 }), ("b", { rid := "b", payload := 1 })],
        [RegEvent.added { rid := "b", payload := 1 }], none) ∧
    (regKeys (regAddSeq (fun r : RItem => r.rid) []
      [{ rid := "a", payload := 0 }, { rid := "a", payload := 1 },
        { rid := "b", payload := 2 }])).Nodup := by
  have h := registry_add_unique_spec (fun r : RItem => r.rid)
  exact ⟨h.1 _ _ { rid := "a", payload := 0 } (by decide),
    h.2.1 _ _ (by decide), h.2.2 _⟩

/-- C8: `BaseRegistry.add` on a list adds sequentially; when item k is a
duplicate, the registry keeps exactly the items 0..k-1 (whose additions and
notifications stand), the exception is raised, and the items after k are
never processed. -/
theorem registry_addList_partial {T : Type} (idOf : T → String) :
    ∀ (pre : List T) (reg : List (String × T)) (x : T) (post : List T),
      (regAddList idOf reg pre).2.2 = none →
      regGet (regAddList idOf reg pre).1 (idOf x) ≠ none →
      regAddList idOf reg (pre ++ x :: post) =
        ((regAddList idOf reg pre).1, (regAddList idOf reg pre).2.1,
          some RegError.registrableAlreadyExists) := by
  intro pre
  induction pre with
  | nil =>
    intro reg x post _ hdup
    simp only [regAddList, List.nil_append]
    cases hg : regGet reg (idOf x) with
    | none => exact absurd hg (by simpa [regAddList] using hdup)
    | some y => simp [regAddList, regAdd, hg]
  | cons p ps ih =>
    intro reg x post hok hdup
    cases ha : regAdd idOf reg p with
    | mk reg1 rest =>
      obtain ⟨evs, res⟩ := rest
      cases res with
      | some e =>
        exfalso
        simp [regAddList, ha] at hok
      | none =>
        cases hrec : regAddList idOf reg1 ps with
        | mk reg2 rest2 =>
          obtain ⟨evs2, res2⟩ := rest2
          simp only [regAddList, List.cons_append, ha, hrec] at hok hdup ⊢
          cases res2 with
          | some e2 => exact absurd hok (by simp)
          | none =>
            have hih := ih reg1 x post (by rw [hrec]) (by rw [hrec]; exact hdup)
            rw [hrec] at hih
            simp only [List.append_eq] at hih ⊢
            rw [hih]

/-- Witness: adding `[a, a2, b]` to an empty registry, where `a2` reuses the
id of `a`, keeps `a`, reports the duplicate, and never adds `b`. -/
theorem registry_addList_partial_witness :
    regAddList (fun r : RItem => r.rid) []
        [{ rid := "a", payload := 0 }, { rid := "a", payload := 1 },
          { rid := "b", payload := 2 }] =
      ([("a", { rid := "a", payload := 0 })],
        [RegEvent.added { rid := "a", payload := 0 }],
        some RegError.registrableAlreadyExists) := by
  have h := registry_addList_partial (fun r : RItem => r.rid)
    [{ rid := "a", payload := 0 }] [] { rid := "a", payload := 1 }
    [{ rid := "b", payload := 2 }] (by decide) (by decide)
  exact h.trans (by decide)

/-! ## Claim about the background task runner -/

/-- C3: one execution of `Worker.run` emits exactly one terminal
notification — `result(value)` precisely when the function returned
normally with that value, `error(info)` precisely when it raised — and then
emits `finished()` exactly once, after the terminal notification. -/
theorem worker_run_terminal_contract {E V : Type} (outcome : Except E V) :
    (∃ t, isTerminal t = true ∧
      workerRun outcome = [t, WorkerEvent.finishedEv]) ∧
    (∀ v, WorkerEvent.resultEv v ∈ workerRun outcome ↔ outcome = Except.ok v) ∧
    (∀ e, WorkerEvent.errorEv e ∈ workerRun outcome ↔ outcome = Except.error e) := by
  cases outcome with
  | ok v =>
    refine ⟨⟨WorkerEvent.resultEv v, rfl, rfl⟩, ?_, ?_⟩ <;>
      intro a <;> simp [workerRun, eq_comm]
  | error e =>
    refine ⟨⟨WorkerEvent.errorEv e, rfl, rfl⟩, ?_, ?_⟩ <;>
      intro a <;> simp [workerRun, eq_comm]

theorem length_filterMap_guard {α β : Type} (p : α → Bool) (g : α → β) :
    ∀ l : List α,
      (l.filterMap fun a => if p a then some (g a) else none).length = l.countP p
  | [] => rfl
  | a :: l => by
    by_cases h : p a <;>
      simp [List.filterMap_cons, h, List.countP_cons,
        length_filterMap_guard p g l]

/-! ## Claim about the Loader -/

/-- C2: loading a directory that holds one loadable code unit yields exactly
one instance per top-level binding that is a type, implements the capability,
and is not the capability type itself; every returned instance received the
extra constructor arguments verbatim, and none of them is of the capability
base type. -/
theorem loader_load_instances (issub : Nat → Nat → Bool) (cap : Nat)
    (args : List Nat) (name ext : String) (defs : List PyDef)
    (hvalid : isValidModule name ext = true) :
    loadEntry issub cap args (FsEntry.dir [FsEntry.file name ext defs]) =
      defs.filterMap (fun d =>
        if d.isClass && issub d.cls cap && d.cls != cap then
          some { cls := d.cls, ctorArgs := args }
        else none) ∧
    (∀ inst ∈ loadEntry issub cap args (FsEntry.dir [FsEntry.file name ext defs]),
      inst.cls ≠ cap ∧ inst.ctorArgs = args) ∧
    (loadEntry issub cap args (FsEntry.dir [FsEntry.file name ext defs])).length =
      defs.countP (fun d => d.isClass && issub d.cls cap && d.cls != cap) := by
  have h1 : loadEntry issub cap args (FsEntry.dir [FsEntry.file name ext defs]) =
      loadRegistrablesFromModule issub cap args defs := by
    simp [loadEntry, loadEntries, hvalid]
  refine ⟨by rw [h1]; rfl, ?_, ?_⟩
  · intro inst hmem
    rw [h1] at hmem
    unfold loadRegistrablesFromModule at hmem
    rw [List.mem_filterMap] at hmem
    obtain ⟨d, _, heq⟩ := hmem
    split at heq
    case isTrue hcond =>
      injection heq with h2
      subst h2
      simp only [Bool.and_eq_true, bne_iff_ne] at hcond
      exact ⟨hcond.2, rfl⟩
    case isFalse => exact absurd heq (by simp)
  · rw [h1]
    unfold loadRegistrablesFromModule
    exact length_filterMap_guard _ _ defs

/-- Host subclass relation for the witness: class 1 subclasses class 0, and
every class subclasses itself. -/
def issubW : Nat → Nat → Bool := fun a b => a == b || (a == 1 && b == 0)

/-- Namespace of the witness code unit: the capability base type (class 0),
one concrete subtype (class 1), and a non-type binding. -/
def defsW : List PyDef :=
  [{ isClass := true, cls := 0 }, { isClass := true, cls := 1 },
    { isClass := false, cls := 9 }]

/-- Witness: a unit defining the capability base type itself and one
concrete subtype makes `load` return exactly one instance — the subtype,
never the base — carrying the forwarded constructor argument. -/
theorem loader_load_instances_witness :
    isValidModule "plugins.py" ".py" = true ∧
    loadEntry issubW 0 [7] (FsEntry.dir [FsEntry.file "plugins.py" ".py" defsW]) =
      [{ cls := 1, ctorArgs := [7] }] := by
  have h := loader_load_instances issubW 0 [7] "plugins.py" ".py" defsW (by decide)
  exact ⟨by decide, h.1.trans (by decide)⟩

/-! ## Claims about the manifest -/

/-- Whether a manifest entry carries all required `ModuleMetadata` fields. -/
def wellFormedEntry (e : RawEntry) : Bool :=
  e.id.isSome && e.relativePath.isSome && e.displayName.isSome

theorem parseEntry_err_of_not_wellFormed (e : RawEntry)
    (h : wellFormedEntry e = false) :
    parseEntry e = Except.error ManifestParseError.missingField := by
  unfold parseEntry
  unfold wellFormedEntry at h
  cases hi : e.id <;> cases hr : e.relativePath <;> cases hd : e.displayName <;>
    simp [hi, hr, hd] at h ⊢

theorem parseEntry_ok_of_wellFormed (e : RawEntry)
    (h : wellFormedEntry e = true) :
    parseEntry e = Except.ok
      { id := e.id.getD "", relativePath := e.relativePath.getD ""
        displayName := e.displayName.getD "", description := e.description } := by
  unfold parseEntry
  unfold wellFormedEntry at h
  cases hi : e.id <;> cases hr : e.relativePath <;> cases hd : e.displayName <;>
    simp [hi, hr, hd] at h ⊢

theorem parseEntries_err (es : List RawEntry)
    (h : ∃ e ∈ es, wellFormedEntry e = false) :
    parseEntries es = Except.error ManifestParseError.missingField := by
  induction es with
  | nil => simp at h
  | cons e rest ih =>
    by_cases hwe : wellFormedEntry e = false
    · unfold parseEntries
      rw [parseEntry_err_of_not_wellFormed e hwe]
    · have hok := parseEntry_ok_of_wellFormed e (by
        cases hb : wellFormedEntry e
        · exact absurd hb hwe
        · rfl)
      obtain ⟨f, hf, hwf⟩ := h
      rcases List.mem_cons.mp hf with rfl | hmem
      · exact absurd hwf hwe
      · unfold parseEntries
        rw [hok, ih ⟨f, hmem, hwf⟩]

/-- C6: `Repository.loadFromFile` fails with the manifest parse error on
malformed JSON and whenever any entry misses a required field; a failing
load propagates out of `PluginService.load` before `addModulesFromRepository`
runs, so zero Modules from that manifest reach the module list. -/
theorem manifest_failfast_spec (basePath : String) :
    (loadFromFile basePath ManifestFile.malformed =
      Except.error ManifestParseError.malformedJson) ∧
    (∀ es : List RawEntry, (∃ e ∈ es, wellFormedEntry e = false) →
      loadFromFile basePath (ManifestFile.parsed es) =
        Except.error ManifestParseError.missingField) ∧
    (∀ (counter : Nat) (items : List ModuleObj) (file : ManifestFile)
        (err : ManifestParseError),
      loadFromFile basePath file = Except.error err →
      pluginServiceLoadOneRun counter items basePath file = items) := by
  refine ⟨rfl, ?_, ?_⟩
  · intro es h
    simp only [loadFromFile]
    rw [parseEntries_err es h]
  · intro counter items file err h
    unfold pluginServiceLoadOneRun pluginServiceLoadOne
    rw [h]

/-- A well-formed manifest entry for the witness. -/
def goodEntryW : RawEntry :=
  { id := some "m1", relativePath := some "m1", displayName := some "M1"
    description := none }

/-- A malformed manifest entry (missing `relativePath`) for the witness. -/
def badEntryW : RawEntry :=
  { id := some "m2", relativePath := none, displayName := some "M2"
    description := none }

/-- Witness: a manifest with one well-formed and one malformed entry raises
and adds zero Modules to the module list. -/
theorem manifest_failfast_spec_witness :
    loadFromFile "/repo" (ManifestFile.parsed [goodEntryW, badEntryW]) =
      Except.error ManifestParseError.missingField ∧
    pluginServiceLoadOneRun 0 [] "/repo"
      (ManifestFile.parsed [goodEntryW, badEntryW]) = [] := by
  have h := manifest_failfast_spec "/repo"
  have h2 := h.2.1 [goodEntryW, badEntryW] ⟨badEntryW, by decide, by decide⟩
  exact ⟨h2, h.2.2 0 [] _ _ h2⟩

/-- Serializing one `ModuleMetadata` back to a manifest entry. -/
def serializeMeta (m : ModuleMetadata) : RawEntry :=
  { id := some m.id, relativePath := some m.relativePath
    displayName := some m.displayName, description := m.description }

theorem parseEntries_serialize (ms : List ModuleMetadata) :
    parseEntries (ms.map serializeMeta) = Except.ok ms := by
  induction ms with
  | nil => rfl
  | cons m rest ih =>
    simp only [List.map_cons, parseEntries, serializeMeta, parseEntry]
    rw [ih]

theorem freshModules_fields (basePath : String) :
    ∀ (ms : List ModuleMetadata) (counter : Nat),
      (freshModules basePath counter ms).map
          (fun m => (m.mid, m.displayName, m.description, m.mpath)) =
        ms.map (fun meta =>
          (meta.id, meta.displayName, meta.description,
            joinpath basePath meta.relativePath))
  | [], _ => rfl
  | m :: rest, counter => by
    simp only [freshModules, List.map_cons, mkModule]
    rw [freshModules_fields basePath rest (counter + 1)]

/-! ## Claim about module-list ingestion -/

theorem freshModules_enabled (dirPath : String) :
    ∀ (ms : List ModuleMetadata) (counter : Nat),
      ∀ m ∈ freshModules dirPath counter ms, m.enabled = false
  | [], _, m, hm => by simp [freshModules] at hm
  | meta :: rest, counter, m, hm => by
    simp only [freshModules, List.mem_cons] at hm
    rcases hm with rfl | hm
    · rfl
    · exact freshModules_enabled dirPath rest (counter + 1) m hm

theorem addModulesAux_eq (dirPath : String) :
    ∀ (metas : List ModuleMetadata) (counter : Nat) (items : List ModuleObj),
      (∀ m ∈ items, m.tag < counter) →
      (addModulesAux dirPath counter items metas).1 =
        items ++ freshModules dirPath counter metas
  | [], _, items, _ => by simp [addModulesAux, freshModules]
  | meta :: rest, counter, items, h => by
    have hpres : isPresent items (mkModule counter dirPath meta) = false := by
      unfold isPresent
      rw [Bool.eq_false_iff]
      intro hany
      rw [List.any_eq_true] at hany
      obtain ⟨x, hx, hbeq⟩ := hany
      have hlt := h x hx
      simp only [mkModule, beq_iff_eq] at hbeq
      omega
    have hbound : ∀ m ∈ items ++ [mkModule counter dirPath meta],
        m.tag < counter + 1 := by
      intro m hm
      rcases List.mem_append.mp hm with h3 | h3
      · exact Nat.lt_succ_of_lt (h m h3)
      · simp only [List.mem_singleton] at h3
        subst h3
        simp [mkModule]
    simp only [addModulesAux, appendItem, hpres, Bool.false_eq_true, if_false]
    rw [addModulesAux_eq dirPath rest (counter + 1)
      (items ++ [mkModule counter dirPath meta]) hbound]
    simp [freshModules]

/-- C9: ingesting a repository constructs one fresh `Module` per metadata,
each disabled, and appends every one of them to the module list: the
identity-based `isPresent` check never fires for a fresh object, so there is
no duplicate-id check and a Module whose id collides with an existing entry
is appended as an additional entry. -/
theorem module_list_append_no_id_check (dirPath : String)
    (metas : List ModuleMetadata) (counter : Nat) (items : List ModuleObj)
    (h : ∀ m ∈ items, m.tag < counter) :
    (addModulesAux dirPath counter items metas).1 =
      items ++ freshModules dirPath counter metas ∧
    ∀ m ∈ freshModules dirPath counter metas, m.enabled = false :=
  ⟨addModulesAux_eq dirPath metas counter items h,
    freshModules_enabled dirPath metas counter⟩

/-- Witness metadata: two manifest entries with the same id. -/
def metaAW : ModuleMetadata :=
  { id := "dup", relativePath := "p1", displayName := "A", description := none }

/-- Witness metadata: second entry reusing the id of the first. -/
def metaBW : ModuleMetadata :=
  { id := "dup", relativePath := "p2", displayName := "B", description := none }

/-- Witness: two metadata entries with a colliding id both end up in the
module list as separate entries. -/
theorem module_list_append_no_id_check_witness :
    (addModulesAux "/r" 0 [] [metaAW, metaBW]).1 =
      [mkModule 0 "/r" metaAW, mkModule 1 "/r" metaBW] ∧
    ((addModulesAux "/r" 0 [] [metaAW, metaBW]).1.map fun m => m.mid) =
      ["dup", "dup"] := by
  have h :=
    (module_list_append_no_id_check "/r" [metaAW, metaBW] 0 [] (by simp)).1
  exact ⟨h.trans (by decide), by rw [h]; decide⟩

/-! ## Claim about the manifest round trip -/

/-- C7: a manifest produced by serializing a list of `ModuleMetadata` loads
back to exactly that metadata with `path` the manifest's parent directory,
and the Modules that `PluginService` then constructs from it keep `id`,
`displayName`, `description` and get `path = basePath/relativePath`. -/
theorem manifest_round_trip_spec (basePath : String) (ms : List ModuleMetadata)
    (counter : Nat) :
    loadFromFile basePath (ManifestFile.parsed (ms.map serializeMeta)) =
      Except.ok { path := basePath, modulesMetadata := ms } ∧
    (pluginServiceLoadOneRun counter [] basePath
        (ManifestFile.parsed (ms.map serializeMeta))).map
        (fun m => (m.mid, m.displayName, m.description, m.mpath)) =
      ms.map (fun meta =>
        (meta.id, meta.displayName, meta.description,
          joinpath basePath meta.relativePath)) := by
  have hload : loadFromFile basePath (ManifestFile.parsed (ms.map serializeMeta)) =
      Except.ok { path := basePath, modulesMetadata := ms } := by
    simp only [loadFromFile]
    rw [parseEntries_serialize]
  refine ⟨hload, ?_⟩
  unfold pluginServiceLoadOneRun pluginServiceLoadOne
  rw [hload]
  simp only
  rw [addModulesAux_eq basePath ms counter [] (by simp)]
  rw [List.nil_append]
  exact freshModules_fields basePath ms counter

/-! ## Claim about the capability router -/

/-- C4: for every registrable a plugin contributes, the router forwards it
to the dock registry exactly when its runtime type subclasses `BaseDock` and
to the setting registry exactly when it subclasses `BaseSetting` (fresh ids
assumed, as `registry.add` would raise on a duplicate); a registrable
matching neither capability is ignored silently — no error and no
registration. -/
theorem capability_router_spec (s : AppServices) (r : CRegistrable) :
    (regGet s.docks r.rid = none → regGet s.settings r.rid = none →
      handleRegistrable s r = Except.ok
        { docks := if r.isDock then s.docks ++ [(r.rid, r)] else s.docks
          settings :=
            if r.isSetting then s.settings ++ [(r.rid, r)] else s.settings }) ∧
    (r.isDock = false → r.isSetting = false →
      handleRegistrable s r = Except.ok s) := by
  constructor
  · intro hd hs
    unfold handleRegistrable
    cases hdk : r.isDock <;> cases hst : r.isSetting <;>
      simp [regAdd, hd, hs, hdk, hst]
  · intro hdk hst
    unfold handleRegistrable
    rw [hdk, hst]
    simp

/-- A registrable subclassing `BaseDock` only, for the witness. -/
def dockOnlyW : CRegistrable := { rid := "d1", isDock := true, isSetting := false }

/-- A registrable matching no known capability, for the witness. -/
def neitherW : CRegistrable := { rid := "x1", isDock := false, isSetting := false }

/-- Witness: a Dock goes to the dock registry only, and a registrable of an
unknown capability is silently ignored. -/
theorem capability_router_spec_witness :
    handleRegistrable { docks := [], settings := [] } dockOnlyW =
      Except.ok { docks := [("d1", dockOnlyW)], settings := [] } ∧
    handleRegistrable { docks := [], settings := [] } neitherW =
      Except.ok { docks := [], settings := [] } := by
  have h1 := (capability_router_spec { docks := [], settings := [] } dockOnlyW).1
    (by decide) (by decide)
  have h2 := (capability_router_spec { docks := [], settings := [] } neitherW).2
    (by decide) (by decide)
  exact ⟨h1.trans (by rfl), h2⟩

/-! ## Claims about startup navigation order -/

theorem windowAddPlugin_eq (w : WindowState) (p : PluginP) :
    windowAddPlugin w p =
      if rendersNav p then
        { stackWidgets := w.stackWidgets ++ [p.pid]
          navEntries := w.navEntries ++ [p.pid] }
      else w := by
  unfold windowAddPlugin rendersNav
  cases hw : p.hasWidget <;> cases hb : navigationBarButton p <;> simp [hw, hb]

theorem foldl_windowAddPlugin :
    ∀ (l : List PluginP) (w : WindowState),
      (l.foldl windowAddPlugin w).navEntries =
        w.navEntries ++ (l.filter rendersNav).map PluginP.pid
  | [], w => by simp
  | p :: l, w => by
    rw [List.foldl_cons, windowAddPlugin_eq]
    by_cases h : rendersNav p
    · rw [if_pos h, foldl_windowAddPlugin l _]
      simp [List.filter_cons, h]
    · rw [if_neg h, foldl_windowAddPlugin l w]
      simp [List.filter_cons, h]

theorem orderedInsert_filter_key (c : Int) (a : PluginP) :
    ∀ s : List PluginP,
      (List.orderedInsert priorityLe a s).filter (fun p => p.priority == c) =
        if a.priority == c then
          a :: s.filter (fun p => p.priority == c)
        else s.filter (fun p => p.priority == c)
  | [] => by
    by_cases h : a.priority = c <;> simp [h]
  | b :: s => by
    by_cases hab : priorityLe a b
    · rw [List.orderedInsert_of_le _ _ hab]
      by_cases h : a.priority = c <;> simp [List.filter_cons, h]
    · have hstep : List.orderedInsert priorityLe a (b :: s) =
          b :: List.orderedInsert priorityLe a s := by
        simp [List.orderedInsert, hab]
      rw [hstep, List.filter_cons, orderedInsert_filter_key c a s]
      by_cases hac : a.priority = c
      · have hbc : ¬b.priority = c := by
          unfold priorityLe at hab
          omega
        simp [List.filter_cons, hac, hbc]
      · by_cases hbc : b.priority = c <;>
          simp [List.filter_cons, hac, hbc]

theorem sortPlugins_filter_key (c : Int) :
    ∀ l : List PluginP,
      (sortPlugins l).filter (fun p => p.priority == c) =
        l.filter (fun p => p.priority == c)
  | [] => rfl
  | a :: l => by
    show (List.orderedInsert priorityLe a (sortPlugins l)).filter
        (fun p => p.priority == c) = _
    rw [orderedInsert_filter_key c a (sortPlugins l), sortPlugins_filter_key c l]
    by_cases h : a.priority = c <;> simp [List.filter_cons, h]

/-- A registered plugin with an icon and a tooltip but no widget (the base
`widget` returns `None`): `_MainWindow.addPlugin` returns before adding a
navigation entry for it. -/
def pNoWidgetW : PluginP :=
  { pid := "p", priority := 10, qtaIconStr := some "i", toolTip := some "t"
    hasWidget := false }

/-- C5 counterexample: the shell does not render a navigation entry for
every registered Plugin — a registered plugin without a widget gets no
entry, so the rendered order for priorities [10] is empty rather than a
one-entry list. -/
theorem nav_order_counterexample :
    pNoWidgetW.pid ∉ (runShell [pNoWidgetW]).navEntries := by decide

/-- Plugin with priority 30, added first. -/
def examplePA : PluginP :=
  { pid := "a", priority := 30, qtaIconStr := some "ia", toolTip := some "ta"
    hasWidget := true }

/-- Plugin with priority 10, added second. -/
def examplePB : PluginP :=
  { pid := "b", priority := 10, qtaIconStr := some "ib", toolTip := some "tb"
    hasWidget := true }

/-- Plugin with priority 20, added third. -/
def examplePC : PluginP :=
  { pid := "c", priority := 20, qtaIconStr := some "ic", toolTip := some "tc"
    hasWidget := true }

/-- C5 (amended): at startup the shell renders navigation entries for the
registered Plugins that supply a widget and a navigation-bar button, in the
order of the stable ascending sort by priority (equal priorities keep
registry insertion order); for such Plugins with priorities [30, 10, 20]
added in that order, the rendered order is [10, 20, 30]. -/
theorem nav_priority_order_amended :
    (∀ l : List PluginP,
      (runShell l).navEntries =
        ((sortPlugins l).filter rendersNav).map PluginP.pid) ∧
    (∀ l : List PluginP, List.Sorted priorityLe (sortPlugins l)) ∧
    (∀ (l : List PluginP) (c : Int),
      (sortPlugins l).filter (fun p => p.priority == c) =
        l.filter (fun p => p.priority == c)) ∧
    (runShell [examplePA, examplePB, examplePC]).navEntries = ["b", "c", "a"] := by
  refine ⟨?_, ?_, ?_, by decide⟩
  · intro l
    unfold runShell
    rw [foldl_windowAddPlugin]
    rfl
  · intro l
    exact List.sorted_insertionSort priorityLe l
  · intro l c
    exact sortPlugins_filter_key c l

/-! ## Claim about the navigation-bar button -/

/-- C10: a `BasePlugin` has a navigation-bar button exactly when both
`qtaIconStr` and `toolTip` are truthy at construction; with no button (or no
widget) the main window contributes no navigation entry for it, while
`PluginService.addPlugin` still registers the plugin exactly like any
other. -/
theorem nav_button_iff_spec :
    (∀ p : PluginP,
      (navigationBarButton p).isSome =
        (truthyStr p.qtaIconStr && truthyStr p.toolTip)) ∧
    (∀ (w : WindowState) (p : PluginP),
      navigationBarButton p = none → windowAddPlugin w p = w) ∧
    (∀ (reg : List (String × PluginP)) (p : PluginP),
      regGet reg p.pid = none →
      pluginServiceAddPlugin reg p =
        (reg ++ [(p.pid, p)], [RegEvent.added p], none)) := by
  refine ⟨?_, ?_, ?_⟩
  · intro p
    unfold navigationBarButton
    by_cases h : truthyStr p.qtaIconStr && truthyStr p.toolTip <;> simp [h]
  · intro w p h
    unfold windowAddPlugin
    simp [h]
  · intro reg p h
    unfold pluginServiceAddPlugin regAdd
    simp [h]

/-- A plugin supplying an icon but no tooltip, with a widget. -/
def pOnlyIconW : PluginP :=
  { pid := "q", priority := 10, qtaIconStr := some "i", toolTip := none
    hasWidget := true }

/-- Witness: a plugin with only an icon gets no button, contributes no
navigation entry, and is still registered like any other plugin. -/
theorem nav_button_iff_spec_witness :
    navigationBarButton pOnlyIconW = none ∧
    windowAddPlugin { stackWidgets := ["s"], navEntries := ["s"] } pOnlyIconW =
      { stackWidgets := ["s"], navEntries := ["s"] } ∧
    pluginServiceAddPlugin [] pOnlyIconW =
      ([("q", pOnlyIconW)], [RegEvent.added pOnlyIconW], none) := by
  have h := nav_button_iff_spec
  refine ⟨by decide, h.2.1 _ pOnlyIconW (by decide), ?_⟩
  exact (h.2.2 [] pOnlyIconW (by decide)).trans (by decide)

end QtApp
